import Mathlib

/-!
Verification of the Whisper persistence layer (connection manager and
migration runner, `src/database_manager.py`) via a shallow embedding.

Python runtime values that flow through the migration runner are modelled
by `PyVal` (the runner manipulates strings and the tuple produced by
`match.groups()`).  The SQL engine is abstracted: a migration script is a
list of abstract statements over a schema (a list of table names), and the
`migrations` ledger table is modelled as the list of values stored in its
`name` column.  Script execution follows the engine semantics the code
relies on: statements run in order, a failing statement aborts the script
leaving earlier effects committed, and only the ledger insert is covered
by the surrounding per-migration transaction.
-/

namespace Whisper

/-- Python values as they appear in the migration runner: `None`, strings
read from the ledger, and the tuple returned by `match.groups()`.  The
pattern has exactly one capture group, so the only tuples that arise are
one-element tuples, modelled by `tuple1`. -/
inductive PyVal where
  | none
  | int (n : Int)
  | str (s : String)
  | tuple1 (v : PyVal)
deriving DecidableEq, Repr

/-- Diagnostic raised by the sqlite3 binding layer when a query parameter
has an unsupported type (e.g. a tuple). -/
def bindErrMsg : String := "Error binding parameter 0 - probably unsupported type."

/-- Parameter binding: scalars bind, a tuple raises a binding error. -/
def bindParam : PyVal → Except String PyVal
  | .tuple1 _ => .error bindErrMsg
  | v => .ok v

/-- Characters allowed in the name group of `^\d{14}_([a-z0-9_]+)\.sql$`. -/
def isNameChar (c : Char) : Bool :=
  c.isLower || c.isDigit || c = '_'

/-- Match `^\d{14}_([a-z0-9_]+)\.sql$` against a character list, returning
the captured name group on success. -/
def matchCore (cs : List Char) : Option String :=
  let pre := cs.take 14
  if pre.length = 14 && pre.all Char.isDigit then
    match cs.drop 14 with
    | '_' :: rest =>
      let nm := rest.take (rest.length - 4)
      let ext := rest.drop (rest.length - 4)
      if ext = ['.', 's', 'q', 'l'] && !nm.isEmpty && nm.all isNameChar then
        some (String.mk nm)
      else
        Option.none
    | _ => Option.none
  else
    Option.none

/-- Matching `MIGRATION_FILE_PATTERN` against a filename. -/
def reMatch (s : String) : Option String :=
  matchCore s.data

/-- Abstract SQL statements appearing in migration scripts. -/
inductive Stmt where
  | createTable (t : String)
  | insertRow (t : String)
  | failing (diag : String)
deriving DecidableEq, Repr

/-- Run one abstract statement against the schema (the set of tables). -/
def execStmt (tables : List String) : Stmt → Except String (List String)
  | .createTable t =>
      if tables.contains t then .error ("table " ++ t ++ " already exists")
      else .ok (tables ++ [t])
  | .insertRow t =>
      if tables.contains t then .ok tables
      else .error ("no such table: " ++ t)
  | .failing d => .error d

/-- Model of `executescript`: run the statements in order; a failure aborts the
script but keeps the effects of the statements already run (the engine
commits them; the surrounding transaction cannot undo them). -/
def runScript (tables : List String) : List Stmt → List String × Option String
  | [] => (tables, Option.none)
  | s :: rest =>
    match execStmt tables s with
    | .ok ts => runScript ts rest
    | .error d => (tables, some d)

/-- Database state seen by the migration runner: the schema and the
values stored in the `name` column of the `migrations` ledger table. -/
structure MigState where
  tables : List String
  ledger : List PyVal
deriving DecidableEq, Repr

/-- Result of one `migrations` call: normal return (with the Python return
value and the list of migration files whose script was executed), or an
uncaught exception. -/
inductive Outcome where
  | ok (st : MigState) (trace : List String) (ret : PyVal)
  | raised (st : MigState) (trace : List String) (diag : String)
deriving DecidableEq, Repr

/-- One per-migration block (`with self.conn:`): run the script, then
insert the ledger row for `name`.  Only the insert is transactional: on
any failure the ledger is rolled back to its entry value, while schema
changes already committed by `executescript` persist. -/
def applyOne (st : MigState) (script : List Stmt) (name : PyVal) :
    MigState × Option String :=
  match runScript st.tables script with
  | (ts, some d) => ({ st with tables := ts }, some d)
  | (ts, Option.none) =>
    match bindParam name with
    | .error d => ({ st with tables := ts }, some d)
    | .ok v => ({ tables := ts, ledger := st.ledger ++ [v] }, Option.none)

/-- The migration loop over the (already sorted) directory listing.
`applied` is the list of ledger names loaded before the loop.  For a
matching filename the runner computes `name = match.groups()` — the
one-element tuple of the captured group — skips when that value occurs in
`applied`, and otherwise applies the file; an exception aborts the loop. -/
def processFiles (files : String → List Stmt) (applied : List PyVal) :
    List String → MigState → List String → Outcome
  | [], st, tr => .ok st tr PyVal.none
  | f :: rest, st, tr =>
    match reMatch f with
    | Option.none => processFiles files applied rest st tr
    | some nm =>
      let name := PyVal.tuple1 (PyVal.str nm)
      if applied.contains name then
        processFiles files applied rest st tr
      else
        match applyOne st (files f) name with
        | (st2, some d) => .raised st2 (tr ++ [f]) d
        | (st2, Option.none) => processFiles files applied rest st2 (tr ++ [f])

/-- Lexicographic comparison of character lists by code point, the order
Python's `sorted` uses on strings. -/
def charListLe : List Char → List Char → Bool
  | [], _ => true
  | _ :: _, [] => false
  | a :: as, b :: bs =>
    if a < b then true
    else if b < a then false
    else charListLe as bs

/-- The filename order used by `sorted(os.listdir(...))`. -/
def strLe (a b : String) : Prop :=
  charListLe a.data b.data = true

instance : DecidableRel strLe :=
  fun a b => Bool.decEq (charListLe a.data b.data) true

/-- Model of `CREATE TABLE IF NOT EXISTS migrations (...)`. -/
def ensureMigrationsTable (st : MigState) : MigState :=
  if st.tables.contains "migrations" then st
  else { st with tables := st.tables ++ ["migrations"] }

/-- The `migrations` method.  `moduleParent` stands for the directory of
the source module (`Path(__file__).parent`), `fsListing` for `os.listdir`
(`Option.none` models a missing directory, which raises), and `files`
gives each file's script.  The method defaults the directory argument,
ensures the ledger table, loads the applied names, and processes the
lexically sorted listing; it has no return statement, so a normal return
yields Python `None`. -/
def migrations (moduleParent : String) (fsListing : String → Option (List String))
    (files : String → List Stmt) (migrationsDirArg : Option String)
    (st : MigState) : Outcome :=
  let dir :=
    match migrationsDirArg with
    | Option.none => moduleParent ++ "/migrations"
    | some d => d
  let st1 := ensureMigrationsTable st
  let applied := st1.ledger
  match fsListing dir with
  | Option.none => .raised st1 [] ("listdir: no such directory: " ++ dir)
  | some listing =>
      processFiles files applied
        (List.insertionSort strLe listing) st1 []

/-- Connection-manager state: the optional live handle (`self._conn`) and
a counter supplying fresh handle identities. -/
structure ConnSt where
  conn? : Option Nat
  nextId : Nat
deriving DecidableEq, Repr

/-- State of a manager that has never opened a connection. -/
def ConnSt.init : ConnSt := ⟨Option.none, 0⟩

/-- The `conn` property: return the live handle, opening a fresh one if
`self._conn is None`. -/
def connGet (c : ConnSt) : ConnSt × Nat :=
  match c.conn? with
  | some h => (c, h)
  | Option.none => (⟨some c.nextId, c.nextId + 1⟩, c.nextId)

/-- Model of `close()`: release the handle if one is open. -/
def close (c : ConnSt) : ConnSt :=
  ⟨Option.none, c.nextId⟩

/-- Handles held by a manager state are older than the freshness counter;
true initially and preserved by `connGet` and `close`. -/
def ConnInv (c : ConnSt) : Prop :=
  ∀ h, c.conn? = some h → h < c.nextId

/-- Error taxonomy surfaced by the connection manager. -/
inductive DBErr where
  | queryError (diag : String)
  | storageUnavailable (diag : String)
deriving DecidableEq, Repr

/-- Model of `execute`: go through the `conn` property (which on first use runs
`os.makedirs`, whose failure is a storage error), then hand the statement
to the engine exactly once; an engine diagnostic is surfaced unchanged as
a query error.  `mkdirs` is the filesystem outcome, `engine k` the
engine's reply to the `k`-th engine call of the session, and `n` the
number of engine calls made so far; the returned counter documents how
many engine calls the operation performed. -/
def executeOp (mkdirs : Except String Unit) (engine : Nat → Except String Unit)
    (c : ConnSt) (n : Nat) : Except DBErr ConnSt × Nat :=
  match c.conn? with
  | Option.none =>
    match mkdirs with
    | .error d => (.error (.storageUnavailable d), n)
    | .ok _ =>
      match engine n with
      | .error d => (.error (.queryError d), n + 1)
      | .ok _ => (.ok ⟨some c.nextId, c.nextId + 1⟩, n + 1)
  | some _ =>
    match engine n with
    | .error d => (.error (.queryError d), n + 1)
    | .ok _ => (.ok c, n + 1)

/-- A result row as produced by the engine: column names with values. -/
abbrev Row := List (String × PyVal)

/-- Insert one binding into a Python dict, overwriting an existing key. -/
def dictInsert (d : Row) (k : String) (v : PyVal) : Row :=
  if d.any (fun p => p.1 == k) then
    d.map (fun p => if p.1 == k then (k, v) else p)
  else
    d ++ [(k, v)]

/-- Model of `dict(row)`: fold the row's bindings into a dict. -/
def rowToDict (r : Row) : Row :=
  r.foldl (fun d p => dictInsert d p.1 p.2) []

/-- Model of `query_one`: fetch the first row of the result set as a dict, or
`None` when the result set is empty. -/
def query_one (rows : List Row) : Option Row :=
  match rows with
  | [] => Option.none
  | r :: _ => some (rowToDict r)

/-- Result set of `SELECT name FROM sqlite_master WHERE type='table' AND
name=?` for a given schema. -/
def sqliteMasterRows (tables : List String) (t : String) : List Row :=
  (tables.filter (fun n => n == t)).map (fun n => [("name", PyVal.str n)])

/-- Model of `table_exists`: the metadata lookup via `query_one`, true exactly when
the result is not `None`. -/
def table_exists (tables : List String) (t : String) : Bool :=
  (query_one (sqliteMasterRows tables t)).isSome

/-! Order properties of the filename comparison used by `sorted`. -/

theorem charListLe_trans : ∀ as bs cs : List Char, charListLe as bs = true →
    charListLe bs cs = true → charListLe as cs = true
  | [], _, _, _, _ => rfl
  | _ :: _, [], _, h1, _ => by simp [charListLe] at h1
  | _ :: _, _ :: _, [], _, h2 => by simp [charListLe] at h2
  | a :: as, b :: bs, c :: cs, h1, h2 => by
    simp only [charListLe] at h1 h2 ⊢
    rcases lt_trichotomy a b with hab | hab | hab
    · rcases lt_trichotomy b c with hbc | hbc | hbc
      · simp [lt_trans hab hbc]
      · subst hbc; simp [hab]
      · rw [if_neg (lt_asymm hbc), if_pos hbc] at h2; simp at h2
    · subst hab
      simp only [lt_self_iff_false, if_false] at h1
      rcases lt_trichotomy a c with hac | hac | hac
      · simp [hac]
      · subst hac
        simp only [lt_self_iff_false, if_false] at h2 ⊢
        exact charListLe_trans as bs cs h1 h2
      · rw [if_neg (lt_asymm hac), if_pos hac] at h2; simp at h2
    · rw [if_neg (lt_asymm hab), if_pos hab] at h1; simp at h1

theorem charListLe_antisymm : ∀ as bs : List Char, charListLe as bs = true →
    charListLe bs as = true → as = bs
  | [], [], _, _ => rfl
  | [], _ :: _, _, h2 => by simp [charListLe] at h2
  | _ :: _, [], h1, _ => by simp [charListLe] at h1
  | a :: as, b :: bs, h1, h2 => by
    simp only [charListLe] at h1 h2
    rcases lt_trichotomy a b with hab | hab | hab
    · rw [if_neg (lt_asymm hab), if_pos hab] at h2; simp at h2
    · subst hab
      simp only [lt_self_iff_false, if_false] at h1 h2
      rw [charListLe_antisymm as bs h1 h2]
    · rw [if_neg (lt_asymm hab), if_pos hab] at h1; simp at h1

theorem charListLe_total : ∀ as bs : List Char,
    charListLe as bs = true ∨ charListLe bs as = true
  | [], _ => Or.inl rfl
  | _ :: _, [] => Or.inr rfl
  | a :: as, b :: bs => by
    simp only [charListLe]
    rcases lt_trichotomy a b with hab | hab | hab
    · left; simp [hab]
    · subst hab
      simp only [lt_self_iff_false, if_false]
      exact charListLe_total as bs
    · right; simp [hab]

instance : IsTrans String strLe :=
  ⟨fun a b c => charListLe_trans a.data b.data c.data⟩

instance : IsAntisymm String strLe :=
  ⟨fun a b h1 h2 => by
    have hd := charListLe_antisymm a.data b.data h1 h2
    cases a; cases b
    exact congrArg String.mk hd⟩

instance : IsTotal String strLe :=
  ⟨fun a b => charListLe_total a.data b.data⟩

/-- Sorting commutes with filtering: both sides are sorted and are
permutations of each other, hence equal. -/
theorem insertionSort_filter (p : String → Bool) (l : List String) :
    (List.insertionSort strLe l).filter p = List.insertionSort strLe (l.filter p) :=
  List.eq_of_perm_of_sorted
    (((List.perm_insertionSort strLe l).filter p).trans
      (List.perm_insertionSort strLe (l.filter p)).symm)
    (List.Pairwise.filter p (List.sorted_insertionSort strLe l))
    (List.sorted_insertionSort strLe (l.filter p))

/-- The migration loop only looks at filenames matching the pattern:
restricting the listing to the matching ones changes nothing. -/
theorem processFiles_filter_matching (files : String → List Stmt)
    (applied : List PyVal) :
    ∀ (l : List String) (st : MigState) (tr : List String),
      processFiles files applied (l.filter (fun f => (reMatch f).isSome)) st tr
        = processFiles files applied l st tr := by
  intro l
  induction l with
  | nil => intro st tr; rfl
  | cons f rest ih =>
    intro st tr
    cases h : reMatch f with
    | none =>
      rw [List.filter_cons_of_neg (by simp [h])]
      rw [ih st tr]
      simp [processFiles, h]
    | some nm =>
      rw [List.filter_cons_of_pos (by simp [h])]
      simp only [processFiles, h]
      by_cases hc : applied.contains (PyVal.tuple1 (PyVal.str nm))
      · simp only [hc, if_true]
        exact ih st tr
      · simp only [hc, if_false]
        cases hA : applyOne st (files f) (PyVal.tuple1 (PyVal.str nm)) with
        | mk st2 e =>
          cases e with
          | none => exact ih st2 (tr ++ [f])
          | some d => rfl

/-! The connection invariant is established at creation and preserved. -/

theorem connInv_init : ConnInv ConnSt.init := by
  intro h hh
  simp [ConnSt.init] at hh

theorem connInv_connGet (c : ConnSt) (hc : ConnInv c) : ConnInv (connGet c).1 := by
  obtain ⟨co, ni⟩ := c
  cases co with
  | none =>
    intro h hh
    simp [connGet] at hh ⊢
    omega
  | some h0 =>
    intro h hh
    simp [connGet] at hh ⊢
    have hlt : h0 < ni := by simpa using hc h0 rfl
    omega

theorem connInv_close (c : ConnSt) : ConnInv (close c) := by
  intro h hh
  simp [close] at hh

/-- Auxiliary: inserting a non-matching filename into the listing does not
change the loop's behaviour on the sorted listing. -/
theorem processSorted_cons_nonmatching (files : String → List Stmt)
    (applied : List PyVal) (f : String) (hf : reMatch f = Option.none)
    (l : List String) (st1 : MigState) :
    processFiles files applied (List.insertionSort strLe (f :: l)) st1 []
      = processFiles files applied (List.insertionSort strLe l) st1 [] := by
  have hEq : (List.insertionSort strLe (f :: l)).filter (fun g => (reMatch g).isSome)
      = (List.insertionSort strLe l).filter (fun g => (reMatch g).isSome) := by
    rw [insertionSort_filter, insertionSort_filter,
      List.filter_cons_of_neg (by simp [hf])]
  rw [← processFiles_filter_matching files applied
        (List.insertionSort strLe (f :: l)) st1 [],
      hEq,
      processFiles_filter_matching files applied
        (List.insertionSort strLe l) st1 []]

/-- Claim C1 (refuted by the code): with `init` already recorded in the
ledger and `20240101000000_init.sql` in the directory, the runner does not
skip the file: `name = match.groups()` is the tuple `('init',)`, which is
never equal to the ledger string `'init'`, so the script is re-executed
(here creating table `t2`) and the subsequent ledger insert raises a
parameter-binding error. -/
theorem migrations_reapplies_recorded_migration :
    migrations "src"
      (fun d => if d = "src/migrations" then some ["20240101000000_init.sql"]
                else Option.none)
      (fun _ => [Stmt.createTable "t2"]) Option.none
      ⟨["migrations"], [PyVal.str "init"]⟩
    = .raised ⟨["migrations", "t2"], [PyVal.str "init"]⟩
        ["20240101000000_init.sql"] bindErrMsg := by decide

/-- Claim C2 (refuted by the code): on a fully up-to-date schema the
`migrations` method falls off the end without a return statement, so the
call evaluates to Python `None`, not to the count `0` promised by its
docstring and `int` annotation. -/
theorem migrations_returns_python_none :
    migrations "src" (fun _ => some []) (fun _ => []) Option.none
      ⟨["migrations"], []⟩
    = .ok ⟨["migrations"], []⟩ [] PyVal.none := by decide

/-- Claim C3: if any step of applying one migration fails — the script
execution or the ledger insert — the per-migration transaction does not
commit its ledger write: the ledger after the failed block equals the
ledger before it, so no row is recorded for a migration that was not
fully applied. -/
theorem applyOne_failure_preserves_ledger (st : MigState) (script : List Stmt)
    (name : PyVal) (st2 : MigState) (d : String)
    (h : applyOne st script name = (st2, some d)) :
    st2.ledger = st.ledger := by
  unfold applyOne at h
  cases hrs : runScript st.tables script with
  | mk ts e =>
    rw [hrs] at h
    cases e with
    | some d2 =>
      simp at h
      rw [← h.1]
    | none =>
      cases hb : bindParam name with
      | error d2 =>
        rw [hb] at h
        simp at h
        rw [← h.1]
      | ok v =>
        rw [hb] at h
        simp at h

/-- Witness: a script failing on its first statement leaves the ledger
untouched. -/
theorem applyOne_failure_preserves_ledger_witness :
    applyOne ⟨["migrations"], []⟩ [Stmt.failing "UNIQUE constraint failed"]
        (PyVal.tuple1 (PyVal.str "x"))
      = (⟨["migrations"], []⟩, some "UNIQUE constraint failed")
    ∧ (⟨["migrations"], []⟩ : MigState).ledger
        = (⟨["migrations"], []⟩ : MigState).ledger :=
  ⟨by decide,
   applyOne_failure_preserves_ledger ⟨["migrations"], []⟩
     [Stmt.failing "UNIQUE constraint failed"] (PyVal.tuple1 (PyVal.str "x"))
     ⟨["migrations"], []⟩ "UNIQUE constraint failed" (by decide)⟩

/-- Claim C4 (refuted by the code): with two fresh matching files the
runner visits them in ascending filename order regardless of the listing
order, but only the earliest pending file's script is ever executed — its
ledger insert raises the binding error, so the later file is never
applied. -/
theorem migrations_applies_only_first_pending :
    migrations "src"
      (fun _ => some ["20240101000001_bb.sql", "20240101000000_aa.sql"])
      (fun f => if f = "20240101000000_aa.sql" then [Stmt.createTable "a"]
                else [Stmt.createTable "b"])
      Option.none ⟨[], []⟩
    = .raised ⟨["migrations", "a"], []⟩ ["20240101000000_aa.sql"]
        bindErrMsg := by decide

/-- Claim C5: an error surfaced by `execute` is either a query error
carrying the engine's diagnostic verbatim, produced by exactly one engine
call, or — when the handle must first be opened and `os.makedirs` fails —
a storage error carrying the filesystem diagnostic, with no engine call;
no other kind occurs and there is no retry. -/
theorem executeOp_error_kinds (mkdirs : Except String Unit)
    (engine : Nat → Except String Unit) (c : ConnSt) (n : Nat) (e : DBErr)
    (h : (executeOp mkdirs engine c n).1 = .error e) :
    (∃ d, e = .storageUnavailable d ∧ mkdirs = .error d
        ∧ c.conn? = Option.none ∧ (executeOp mkdirs engine c n).2 = n)
    ∨ (∃ d, e = .queryError d ∧ engine n = .error d
        ∧ (executeOp mkdirs engine c n).2 = n + 1) := by
  unfold executeOp at h ⊢
  cases hc : c.conn? with
  | none =>
    rw [hc] at h
    cases hmk : mkdirs with
    | error d =>
      rw [hmk] at h
      have h2 : (Except.error (DBErr.storageUnavailable d) : Except DBErr ConnSt)
          = Except.error e := h
      injection h2 with h3
      exact Or.inl ⟨d, h3.symm, rfl, rfl, rfl⟩
    | ok u =>
      rw [hmk] at h
      cases he : engine n with
      | error d =>
        rw [he] at h
        have h2 : (Except.error (DBErr.queryError d) : Except DBErr ConnSt)
            = Except.error e := h
        injection h2 with h3
        exact Or.inr ⟨d, h3.symm, rfl, rfl⟩
      | ok v =>
        rw [he] at h
        have h2 : (Except.ok ⟨some c.nextId, c.nextId + 1⟩ : Except DBErr ConnSt)
            = Except.error e := h
        exact Except.noConfusion h2
  | some h0 =>
    rw [hc] at h
    cases he : engine n with
    | error d =>
      rw [he] at h
      have h2 : (Except.error (DBErr.queryError d) : Except DBErr ConnSt)
          = Except.error e := h
      injection h2 with h3
      exact Or.inr ⟨d, h3.symm, rfl, rfl⟩
    | ok v =>
      rw [he] at h
      have h2 : (Except.ok c : Except DBErr ConnSt) = Except.error e := h
      exact Except.noConfusion h2

/-- Witness: a failing engine call surfaces as a query error with the
engine's diagnostic, after one engine call. -/
theorem executeOp_error_kinds_witness :
    (∃ d, DBErr.queryError "syntax error" = DBErr.storageUnavailable d
        ∧ (Except.ok () : Except String Unit) = .error d
        ∧ (⟨some 0, 1⟩ : ConnSt).conn? = Option.none
        ∧ (executeOp (Except.ok ()) (fun _ => Except.error "syntax error")
            ⟨some 0, 1⟩ 0).2 = 0)
    ∨ (∃ d, DBErr.queryError "syntax error" = DBErr.queryError d
        ∧ (fun _ => (Except.error "syntax error" : Except String Unit)) 0 = .error d
        ∧ (executeOp (Except.ok ()) (fun _ => Except.error "syntax error")
            ⟨some 0, 1⟩ 0).2 = 0 + 1) :=
  executeOp_error_kinds (Except.ok ()) (fun _ => Except.error "syntax error")
    ⟨some 0, 1⟩ 0 (DBErr.queryError "syntax error") rfl

/-- Claim C6: a directory entry whose filename does not match the pattern
is never executed and never recorded, and raises nothing: adding it to
the directory listing leaves the run's entire outcome unchanged. -/
theorem migrations_ignores_nonmatching (mp : String)
    (fs : String → Option (List String)) (files : String → List Stmt)
    (dirArg : Option String) (st : MigState) (f : String)
    (hf : reMatch f = Option.none) :
    migrations mp (fun d => (fs d).map (fun l => f :: l)) files dirArg st
      = migrations mp fs files dirArg st := by
  cases dirArg with
  | none =>
    unfold migrations
    cases hL : fs (mp ++ "/migrations") with
    | none => simp [hL]
    | some l =>
      simp only [hL, Option.map_some']
      exact processSorted_cons_nonmatching files _ f hf l _
  | some d0 =>
    unfold migrations
    cases hL : fs d0 with
    | none => simp [hL]
    | some l =>
      simp only [hL, Option.map_some']
      exact processSorted_cons_nonmatching files _ f hf l _

/-- Witness: a `README.md` in the migrations directory changes nothing. -/
theorem migrations_ignores_nonmatching_witness :
    reMatch "README.md" = Option.none
    ∧ migrations "src" (fun _ => some ["README.md"]) (fun _ => [])
        Option.none ⟨[], []⟩
      = migrations "src" (fun _ => some []) (fun _ => []) Option.none ⟨[], []⟩ :=
  ⟨by decide,
   migrations_ignores_nonmatching "src" (fun _ => some []) (fun _ => [])
     Option.none ⟨[], []⟩ "README.md" (by decide)⟩

/-- Claim C7: while a handle is live, `conn` returns that same handle; an
access always leaves a live handle (opening one on first use); `close`
releases the handle; and an access after `close` opens a fresh handle —
distinct from the released one — rather than failing. -/
theorem conn_lifecycle (c : ConnSt) (hinv : ConnInv c) :
    (∀ h, c.conn? = some h → connGet c = (c, h))
    ∧ ((connGet c).1.conn?).isSome = true
    ∧ (close c).conn? = Option.none
    ∧ ∀ h, c.conn? = some h →
        (connGet (close c)).2 ≠ h
        ∧ (connGet (close c)).1.conn? = some (connGet (close c)).2 := by
  refine ⟨?_, ?_, rfl, ?_⟩
  · intro h hh
    unfold connGet
    rw [hh]
  · unfold connGet
    cases hc : c.conn? <;> simp [hc]
  · intro h hh
    have hlt := hinv h hh
    refine ⟨?_, rfl⟩
    simp [connGet, close]
    omega

/-- Witness: with handle 0 live, `conn` keeps returning 0; after `close`
a fresh access yields a different handle. -/
theorem conn_lifecycle_witness :
    connGet ⟨some 0, 1⟩ = (⟨some 0, 1⟩, 0)
    ∧ (connGet (close ⟨some 0, 1⟩)).2 ≠ 0 := by
  have hm := conn_lifecycle ⟨some 0, 1⟩ (by intro h hh; simp at hh ⊢; omega)
  exact ⟨hm.1 0 rfl, (hm.2.2.2 0 rfl).1⟩

/-- Claim C8: `query_one` returns `None` exactly when the result set is
empty, and otherwise the first row converted to a column-name mapping —
never a fabricated default. -/
theorem query_one_first_or_none (rows : List Row) :
    (query_one rows = Option.none ↔ rows = [])
    ∧ ∀ r rest, rows = r :: rest → query_one rows = some (rowToDict r) := by
  constructor
  · cases rows <;> simp [query_one]
  · intro r rest hr
    subst hr
    rfl

/-- Witness: a one-row result set yields that row as a dict. -/
theorem query_one_first_or_none_witness :
    query_one [[("name", PyVal.str "x")]]
      = some (rowToDict [("name", PyVal.str "x")]) :=
  (query_one_first_or_none [[("name", PyVal.str "x")]]).2
    [("name", PyVal.str "x")] [] rfl

/-- Auxiliary: `query_one` on a nonempty result set is not `None`. -/
theorem query_one_isSome (rows : List Row) (h : rows ≠ []) :
    (query_one rows).isSome = true := by
  cases rows with
  | nil => exact absurd rfl h
  | cons r l => rfl

/-- Claim C9: `table_exists` returns false for any name with no table of
that name (without throwing), and true immediately after that table's
creation. -/
theorem table_exists_correct (tables : List String) (t : String) :
    (t ∉ tables → table_exists tables t = false)
    ∧ ∀ ts2, execStmt tables (Stmt.createTable t) = .ok ts2 →
        table_exists ts2 t = true := by
  constructor
  · intro hnot
    have hfil : tables.filter (fun n => n == t) = [] := by
      rw [List.filter_eq_nil_iff]
      intro a ha
      simp only [beq_iff_eq]
      intro heq
      exact hnot (heq ▸ ha)
    unfold table_exists sqliteMasterRows
    rw [hfil]
    rfl
  · intro ts2 hok
    simp only [execStmt] at hok
    by_cases hc : tables.contains t
    · rw [if_pos hc] at hok
      simp at hok
    · rw [if_neg hc] at hok
      simp only [Except.ok.injEq] at hok
      unfold table_exists
      apply query_one_isSome
      unfold sqliteMasterRows
      intro hnil
      rw [List.map_eq_nil_iff] at hnil
      have hmem : t ∈ ts2.filter (fun n => n == t) :=
        List.mem_filter.mpr
          ⟨by rw [← hok]; exact List.mem_append_right _ (List.mem_singleton.mpr rfl),
           by simp⟩
      rw [hnil] at hmem
      cases hmem

/-- Witness: no table named `t` in an empty schema; `t` exists right
after `CREATE TABLE t`. -/
theorem table_exists_correct_witness :
    table_exists [] "t" = false ∧ table_exists ["t"] "t" = true :=
  ⟨(table_exists_correct [] "t").1 (by simp),
   (table_exists_correct [] "t").2 ["t"] rfl⟩

/-- Claim C10: calling the runner without a directory argument is the
same call as passing the `migrations` directory next to the source
module explicitly; the same discovery and apply procedure runs on it. -/
theorem migrations_default_directory (mp : String)
    (fs : String → Option (List String)) (files : String → List Stmt)
    (st : MigState) :
    migrations mp fs files Option.none st
      = migrations mp fs files (some (mp ++ "/migrations")) st := rfl

end Whisper
